import Mathlib

/-!
Verification development for the blog_drf backend: the vote ledger and its
toggle protocol (`posts/serializers.py`, `VoteSerializer.create`), the points
aggregator signals (`posts/signals.py`), the tag garbage collector
(`posts/signals.py`, `delete_related_tags`), the vote deletion endpoint
(`posts/views.py`, `VoteViewSet.destroy`), account creation
(`core/models.py`, `UserManager.create_user`) and the post-listing sort
(`posts/views.py`, `PostsViewSet.get_queryset`).

Entities are modelled by their ids (`Nat`); the relational store is a list of
rows; Django signal handlers are folded into the operations that fire them,
in the order Django fires them (`post_save` after the row is persisted,
`pre_delete` before the row is removed).  Python integers are unbounded, so
the `points` counter is an `Int`.
-/

namespace BlogDrf

/-- Modelled from the spec: the `Vote` model is imported from `core.models`
by the serializers, signals and views, but its class definition is absent
from the provided sources.  Per the spec's data model, a vote carries a
user, a comment and a `vote_type` that is either `upvote` or `downvote`. -/
inductive VoteType where
  | upvote
  | downvote
deriving DecidableEq, Repr

/-- Modelled from the spec: a `Vote` row — "user, comment, vote_type
(upvote | downvote)".  The `id` is the primary key the ORM assigns. -/
structure Vote where
  id : Nat
  user : Nat
  comment : Nat
  vote_type : VoteType
deriving DecidableEq, Repr

/-- A lifecycle event on the vote ledger: Django's `post_save` fires after a
`Vote` row is persisted and `pre_delete` fires before one is removed. -/
inductive Event where
  | created (v : Vote)
  | deleted (v : Vote)
deriving DecidableEq, Repr

/-- The fixed relational context the vote operations read: which user
authored each comment (`Comment.author`, from `core/models.py`). -/
structure Env where
  commentAuthor : Nat → Nat

/-- The mutable store the vote operations touch: the `Vote` rows, each
user's `UserProfile.points` counter, and the next primary key. -/
structure DBState where
  votes : List Vote
  points : Nat → Int
  nextId : Nat

/-- A fresh store: no votes, and every profile at the
`points = PositiveIntegerField(default=0)` default from `core/models.py`. -/
def initState : DBState :=
  { votes := [], points := fun _ => 0, nextId := 0 }

/-- The signed contribution of a vote type to the comment author's points:
`+1` for an upvote, `-1` for a downvote (`posts/signals.py`). -/
def voteDelta (t : VoteType) : Int :=
  if t = VoteType.upvote then 1 else -1

/-- Adjust one user's points counter, leaving every other profile alone. -/
def adjustPoints (s : DBState) (who : Nat) (d : Int) : DBState :=
  { s with points := fun u => if u = who then s.points u + d else s.points u }

/-- `calculate_user_points_add_vote` (`posts/signals.py`): after a `Vote` is
saved, add 1 to the comment author's points for an upvote, else subtract 1. -/
def calculate_user_points_add_vote (env : Env) (s : DBState) (v : Vote) : DBState :=
  adjustPoints s (env.commentAuthor v.comment) (voteDelta v.vote_type)

/-- `calculate_user_points_delete_vote` (`posts/signals.py`): before a `Vote`
is deleted, subtract 1 from the comment author's points for an upvote, else
add 1 — the inverse of the creation adjustment. -/
def calculate_user_points_delete_vote (env : Env) (s : DBState) (v : Vote) : DBState :=
  adjustPoints s (env.commentAuthor v.comment) (-(voteDelta v.vote_type))

/-- `Vote.objects.create(...)`: persist a new row (fresh primary key) and
fire the `post_save` signal.  Returns the updated store and the new row. -/
def voteCreate (env : Env) (s : DBState) (user comment : Nat) (t : VoteType) :
    DBState × Vote :=
  let v : Vote := { id := s.nextId, user := user, comment := comment, vote_type := t }
  let s1 : DBState := { s with votes := s.votes ++ [v], nextId := s.nextId + 1 }
  (calculate_user_points_add_vote env s1 v, v)

/-- `vote.delete()`: fire the `pre_delete` signal, then remove the row. -/
def voteDelete (env : Env) (s : DBState) (v : Vote) : DBState :=
  let s1 := calculate_user_points_delete_vote env s v
  { s1 with votes := s1.votes.filter (fun w => w.id ≠ v.id) }

/-- `Vote.objects.filter(user=user, comment__id=comment_id).first()`
(`posts/serializers.py`): the first stored vote by `user` on `comment`. -/
def findVote (s : DBState) (user comment : Nat) : Option Vote :=
  s.votes.find? (fun v => v.user == user && v.comment == comment)

/-- `VoteSerializer.create` with `perform_create` supplying the request user
(`posts/serializers.py` lines 176–196): the toggle protocol.  No existing
vote → create; same `vote_type` → delete the existing vote and return its
(now stale) data; different `vote_type` → delete the old vote, then create
the new one.  Also returns the lifecycle events in the order they fire. -/
def submit_vote (env : Env) (s : DBState) (user comment : Nat) (t : VoteType) :
    DBState × Vote × List Event :=
  match findVote s user comment with
  | none =>
      ((voteCreate env s user comment t).1, (voteCreate env s user comment t).2,
        [Event.created (voteCreate env s user comment t).2])
  | some vote =>
      if vote.vote_type = t then
        (voteDelete env s vote, vote, [Event.deleted vote])
      else
        ((voteCreate env (voteDelete env s vote) user comment t).1,
          (voteCreate env (voteDelete env s vote) user comment t).2,
          [Event.deleted vote,
            Event.created (voteCreate env (voteDelete env s vote) user comment t).2])

/-- Outcome of `VoteViewSet.destroy`: 404 when the vote id does not exist,
403 when the requester does not own the vote, 204 when it was deleted. -/
inductive DestroyResult where
  | notFound
  | forbidden
  | deleted
deriving DecidableEq, Repr

/-- `VoteViewSet.destroy` (`posts/views.py` lines 163–170): look the vote up
by id; a requester who is not the vote's user gets a 403 and nothing
changes; the owner's request deletes the vote (firing `pre_delete`). -/
def destroy (env : Env) (s : DBState) (requestUser voteId : Nat) :
    DBState × DestroyResult :=
  match s.votes.find? (fun v => v.id == voteId) with
  | none => (s, DestroyResult.notFound)
  | some vote =>
      if vote.user ≠ requestUser then (s, DestroyResult.forbidden)
      else (voteDelete env s vote, DestroyResult.deleted)

/-- States reachable from a fresh store by vote submissions and deletion
requests. -/
inductive Reachable (env : Env) : DBState → Prop where
  | init : Reachable env initState
  | vote (s : DBState) (u c : Nat) (t : VoteType) :
      Reachable env s → Reachable env (submit_vote env s u c t).1
  | del (s : DBState) (ru vid : Nat) :
      Reachable env s → Reachable env (destroy env s ru vid).1

/-- The number of stored votes by `user` on `comment`. -/
def countVotes (s : DBState) (user comment : Nat) : Nat :=
  (s.votes.filter (fun v => v.user == user && v.comment == comment)).length

/-- A concrete environment for witnesses: every comment is authored by user 0. -/
def env0 : Env := { commentAuthor := fun _ => 0 }

/-- A concrete stored vote: vote 0 is user 1's upvote on comment 2. -/
def vB : Vote := { id := 0, user := 1, comment := 2, vote_type := VoteType.upvote }

/-- A concrete store holding exactly the vote `vB`. -/
def sB : DBState := { votes := [vB], points := fun _ => 1, nextId := 1 }

/-- A concrete store for the C6 counterexample: no votes, and the comment
author (user 0) starts with 5 points. -/
def s5 : DBState := { votes := [], points := fun _ => 5, nextId := 0 }

/-- A `Tag` row (`core/models.py`): a name with a numeric primary key.  The
optional owning user plays no part in the tag garbage collector. -/
structure Tag where
  id : Nat
  name : String
deriving DecidableEq, Repr

/-- A `Post` row (`core/models.py`), with the fields the post listing and
the tag garbage collector read: the many-to-many `tags` as a list of tag
ids, the derived `number_of_comments`, and the two timestamps as ticks. -/
structure Post where
  id : Nat
  title : String
  tags : List Nat
  number_of_comments : Nat
  created_at : Nat
  updated_at : Nat
deriving DecidableEq, Repr

/-- The store the post/tag operations touch: the `Post` rows and `Tag` rows. -/
structure BlogState where
  posts : List Post
  tags : List Tag
deriving DecidableEq, Repr

/-- `len(tag.post_set.all())`: the number of posts whose tag set references
the tag id. -/
def postsWithTag (s : BlogState) (tid : Nat) : Nat :=
  (s.posts.filter (fun q => q.tags.contains tid)).length

/-- `delete_related_tags` (`posts/signals.py` lines 10–18): on `pre_delete`
of a post, delete each tag attached to it whose referencing-post count —
computed while the post still exists — is exactly one. -/
def delete_related_tags (s : BlogState) (p : Post) : BlogState :=
  { s with
    tags := s.tags.filter
      (fun t => !(p.tags.contains t.id && postsWithTag s t.id == 1)) }

/-- `post.delete()`: fire the `pre_delete` tag garbage collector, then
remove the post row. -/
def post_delete (s : BlogState) (p : Post) : BlogState :=
  let s1 := delete_related_tags s p
  { s1 with posts := s1.posts.filter (fun q => q.id ≠ p.id) }

/-- A `User` row as far as `create_user` builds one (`core/models.py`):
normalized email and the username passed through `extra_fields`.  The
hashed password is not modelled. -/
structure User where
  email : String
  username : String
deriving DecidableEq, Repr

/-- The framework's `BaseUserManager.normalize_email`: strip the address,
split on the last `@`, and lowercase the domain part; an address with no
`@` is returned unchanged. -/
def normalize_email (email : String) : String :=
  let parts := (email.trim).splitOn "@"
  if parts.length ≤ 1 then email
  else String.intercalate "@" parts.dropLast ++ "@" ++ (parts.getLastD "").toLower

/-- `UserManager.create_user` (`core/models.py` lines 23–32): reject an
empty email, reject a password shorter than 6 characters, otherwise save
and return the new user row.  Database-level unique constraints live in the
excluded ORM layer and are not modelled. -/
def create_user (users : List User) (email password username : String) :
    Except String (List User × User) :=
  if email = "" then Except.error "User must have an email address."
  else if password.length < 6 then Except.error "Password must be at least 6 characters."
  else
    let user : User := { email := normalize_email email, username := username }
    Except.ok (users ++ [user], user)

/-- The sort key `lambda p: p.title.lower()` from `PostsViewSet.get_queryset`.
Lean's `toLower` lowercases ASCII letters, which is how every tested title
behaves. -/
def titleKey (p : Post) : String := p.title.toLower

/-- Ascending comparison by a key, as Python's `list.sort(key=k)` orders. -/
def keyAsc {α : Type} (k : Post → α) [LinearOrder α] : Post → Post → Prop :=
  fun p q => k p ≤ k q

/-- Descending comparison by a key, as `list.sort(key=k, reverse=True)`
orders. -/
def keyDesc {α : Type} (k : Post → α) [LinearOrder α] : Post → Post → Prop :=
  fun p q => k q ≤ k p

instance {α : Type} (k : Post → α) [LinearOrder α] : DecidableRel (keyAsc k) :=
  fun p q => inferInstanceAs (Decidable (k p ≤ k q))

instance {α : Type} (k : Post → α) [LinearOrder α] : DecidableRel (keyDesc k) :=
  fun p q => inferInstanceAs (Decidable (k q ≤ k p))

instance {α : Type} (k : Post → α) [LinearOrder α] : IsTotal Post (keyAsc k) :=
  ⟨fun a b => le_total (k a) (k b)⟩

instance {α : Type} (k : Post → α) [LinearOrder α] : IsTotal Post (keyDesc k) :=
  ⟨fun a b => le_total (k b) (k a)⟩

instance {α : Type} (k : Post → α) [LinearOrder α] : IsTrans Post (keyAsc k) :=
  ⟨fun _ _ _ hab hbc => le_trans hab hbc⟩

instance {α : Type} (k : Post → α) [LinearOrder α] : IsTrans Post (keyDesc k) :=
  ⟨fun _ _ _ hab hbc => le_trans hbc hab⟩

/-- The tag filter from `PostsViewSet.get_queryset`: with a `tags` query
parameter, keep the posts carrying at least one of the given tag ids. -/
def filterByTags (tags : Option (List Nat)) (queryset : List Post) : List Post :=
  match tags with
  | none => queryset
  | some tag_ids => queryset.filter (fun p => p.tags.any (fun tid => tag_ids.contains tid))

/-- The sort dispatch from `PostsViewSet.get_queryset` (`posts/views.py`
lines 56–84): each accepted value of the `sort` parameter stably sorts the
list by its key; anything else leaves the list as is. -/
def sortPosts (sort : Option String) (queryset : List Post) : List Post :=
  match sort with
  | none => queryset
  | some sort =>
      if sort = "title-asc" then List.insertionSort (keyAsc titleKey) queryset
      else if sort = "title-desc" then List.insertionSort (keyDesc titleKey) queryset
      else if sort = "comments-asc" then
        List.insertionSort (keyAsc Post.number_of_comments) queryset
      else if sort = "comments-desc" then
        List.insertionSort (keyDesc Post.number_of_comments) queryset
      else if sort = "date-asc" then List.insertionSort (keyAsc Post.created_at) queryset
      else if sort = "date-desc" then List.insertionSort (keyDesc Post.created_at) queryset
      else if sort = "update-asc" then List.insertionSort (keyAsc Post.updated_at) queryset
      else if sort = "update-desc" then List.insertionSort (keyDesc Post.updated_at) queryset
      else queryset

/-- `PostsViewSet.get_queryset`: optional tag filtering, then optional
sorting. -/
def get_queryset (tags : Option (List Nat)) (sort : Option String)
    (posts : List Post) : List Post :=
  sortPosts sort (filterByTags tags posts)

/-- Concrete post for witnesses: post 1 carries tags 1 and 2. -/
def pA : Post :=
  { id := 1, title := "a", tags := [1, 2], number_of_comments := 0,
    created_at := 0, updated_at := 0 }

/-- Concrete post for witnesses: post 2 carries only tag 2. -/
def pB : Post :=
  { id := 2, title := "b", tags := [2], number_of_comments := 0,
    created_at := 0, updated_at := 0 }

/-- Concrete tag referenced only by `pA`. -/
def tag1 : Tag := { id := 1, name := "python" }

/-- Concrete tag referenced by both posts. -/
def tag2 : Tag := { id := 2, name := "django" }

/-- Concrete tag attached to no post. -/
def tag3 : Tag := { id := 3, name := "rest" }

/-- Concrete blog store for witnesses. -/
def sBlog : BlogState := { posts := [pA, pB], tags := [tag1, tag2, tag3] }

lemma adjustPoints_votes (s : DBState) (w : Nat) (d : Int) :
    (adjustPoints s w d).votes = s.votes := rfl

lemma adjustPoints_points_self (s : DBState) (w : Nat) (d : Int) :
    (adjustPoints s w d).points w = s.points w + d := by
  simp [adjustPoints]

lemma voteDelete_votes (env : Env) (s : DBState) (v : Vote) :
    (voteDelete env s v).votes = s.votes.filter (fun w => w.id ≠ v.id) := rfl

lemma voteDelete_points (env : Env) (s : DBState) (v : Vote) :
    (voteDelete env s v).points (env.commentAuthor v.comment)
      = s.points (env.commentAuthor v.comment) - voteDelta v.vote_type := by
  simp [voteDelete, calculate_user_points_delete_vote, adjustPoints]
  ring

lemma voteCreate_votes (env : Env) (s : DBState) (u c : Nat) (t : VoteType) :
    (voteCreate env s u c t).1.votes
      = s.votes ++ [{ id := s.nextId, user := u, comment := c, vote_type := t }] := rfl

lemma voteCreate_points (env : Env) (s : DBState) (u c : Nat) (t : VoteType) :
    (voteCreate env s u c t).1.points (env.commentAuthor c)
      = s.points (env.commentAuthor c) + voteDelta t := by
  simp [voteCreate, calculate_user_points_add_vote, adjustPoints]

lemma voteCreate_snd (env : Env) (s : DBState) (u c : Nat) (t : VoteType) :
    (voteCreate env s u c t).2
      = { id := s.nextId, user := u, comment := c, vote_type := t } := rfl

lemma self_not_mem_voteDelete (env : Env) (s : DBState) (v : Vote) :
    v ∉ (voteDelete env s v).votes := by
  simp [voteDelete_votes, List.mem_filter]

/-- **C3.** The points aggregator adds 1 to the comment author's points on an
upvote and subtracts 1 on a downvote; deletion applies the exact inverse
adjustment, so creating a vote and then deleting it restores the comment
author's points to their value before the creation. -/
theorem points_aggregator_inverse (env : Env) (s : DBState) (u c : Nat) (t : VoteType) :
    ((voteCreate env s u c VoteType.upvote).1.points (env.commentAuthor c)
        = s.points (env.commentAuthor c) + 1)
  ∧ ((voteCreate env s u c VoteType.downvote).1.points (env.commentAuthor c)
        = s.points (env.commentAuthor c) - 1)
  ∧ (∀ v : Vote, (voteDelete env s v).points (env.commentAuthor v.comment)
        = s.points (env.commentAuthor v.comment) - voteDelta v.vote_type)
  ∧ ((voteDelete env (voteCreate env s u c t).1 (voteCreate env s u c t).2).points
        (env.commentAuthor c)
        = s.points (env.commentAuthor c)) := by
  refine ⟨?_, ?_, fun v => voteDelete_points env s v, ?_⟩
  · rw [voteCreate_points]; simp [voteDelta]
  · rw [voteCreate_points]; simp [voteDelta]; ring
  · have h2 := voteDelete_points env (voteCreate env s u c t).1 (voteCreate env s u c t).2
    rw [voteCreate_snd] at h2
    simp only [voteCreate_snd] at *
    rw [h2, voteCreate_points]
    ring

/-- **C1.** `submit_vote` follows the toggle protocol: with no existing vote
by `u` on `c`, it creates and returns a vote with the requested type,
emitting a creation event; with an existing vote of the same type, it
deletes that vote and returns the deleted vote's data, emitting a deletion
event; with an existing vote of a different type, it deletes the old vote
and creates a new one with the requested type, returning the new vote and
emitting the deletion event before the creation event. -/
theorem submit_vote_toggle_protocol (env : Env) (s : DBState) (u c : Nat) (t : VoteType) :
    (findVote s u c = none →
      (submit_vote env s u c t).2.1.user = u
      ∧ (submit_vote env s u c t).2.1.comment = c
      ∧ (submit_vote env s u c t).2.1.vote_type = t
      ∧ (submit_vote env s u c t).2.1 ∈ (submit_vote env s u c t).1.votes
      ∧ (submit_vote env s u c t).2.2 = [Event.created (submit_vote env s u c t).2.1])
  ∧ (∀ v : Vote, findVote s u c = some v → v.vote_type = t →
      (submit_vote env s u c t).1 = voteDelete env s v
      ∧ v ∉ (submit_vote env s u c t).1.votes
      ∧ (submit_vote env s u c t).2.1 = v
      ∧ (submit_vote env s u c t).2.2 = [Event.deleted v])
  ∧ (∀ v : Vote, findVote s u c = some v → v.vote_type ≠ t →
      v ∉ (submit_vote env s u c t).1.votes
      ∧ (submit_vote env s u c t).2.1.user = u
      ∧ (submit_vote env s u c t).2.1.comment = c
      ∧ (submit_vote env s u c t).2.1.vote_type = t
      ∧ (submit_vote env s u c t).2.1 ∈ (submit_vote env s u c t).1.votes
      ∧ (submit_vote env s u c t).2.2
          = [Event.deleted v, Event.created (submit_vote env s u c t).2.1]) := by
  refine ⟨?_, ?_, ?_⟩
  · intro h
    simp only [submit_vote, h, voteCreate_votes, voteCreate_snd,
      calculate_user_points_add_vote, adjustPoints_votes]
    simp [voteCreate]
  · intro v hv ht
    simp only [submit_vote, hv, if_pos ht]
    exact ⟨trivial, self_not_mem_voteDelete env s v, trivial, trivial⟩
  · intro v hv ht
    simp only [submit_vote, hv, if_neg ht]
    refine ⟨?_, ?_⟩
    · intro hmem
      simp only [voteCreate_votes, voteDelete_votes, calculate_user_points_add_vote,
        adjustPoints_votes, List.mem_append, List.mem_filter, List.mem_singleton,
        voteCreate] at hmem
      rcases hmem with ⟨_, hid⟩ | heq
      · simp at hid
      · exact ht (by rw [heq])
    · simp [voteCreate, calculate_user_points_add_vote, adjustPoints]

/-- Witness for C1: the three branches of the toggle protocol, each at a
concrete store — a fresh store for creation, and `sB` for the unvote and
flip branches. -/
theorem submit_vote_toggle_protocol_witness :
    ((submit_vote env0 initState 1 2 VoteType.upvote).2.2
        = [Event.created (submit_vote env0 initState 1 2 VoteType.upvote).2.1])
  ∧ (vB ∉ (submit_vote env0 sB 1 2 VoteType.upvote).1.votes)
  ∧ ((submit_vote env0 sB 1 2 VoteType.downvote).2.2
        = [Event.deleted vB,
            Event.created (submit_vote env0 sB 1 2 VoteType.downvote).2.1]) :=
  ⟨((submit_vote_toggle_protocol env0 initState 1 2 VoteType.upvote).1
      (by decide)).2.2.2.2,
   ((submit_vote_toggle_protocol env0 sB 1 2 VoteType.upvote).2.1 vB
      (by decide) (by decide)).2.1,
   ((submit_vote_toggle_protocol env0 sB 1 2 VoteType.downvote).2.2 vB
      (by decide) (by decide)).2.2.2.2.2⟩

lemma countVotes_voteDelete_le (env : Env) (s : DBState) (v : Vote) (u c : Nat) :
    countVotes (voteDelete env s v) u c ≤ countVotes s u c := by
  have hsub := ((List.filter_sublist s.votes
    (p := fun w => decide (w.id ≠ v.id))).filter
      (fun w => w.user == u && w.comment == c)).length_le
  simpa [countVotes, voteDelete_votes] using hsub

lemma countVotes_voteCreate (env : Env) (s : DBState) (u c u' c' : Nat) (t : VoteType) :
    countVotes (voteCreate env s u c t).1 u' c'
      = countVotes s u' c' + (if u = u' ∧ c = c' then 1 else 0) := by
  by_cases h : u = u' ∧ c = c'
  · obtain ⟨h1, h2⟩ := h
    subst h1; subst h2
    simp [countVotes, voteCreate_votes, List.filter_append]
  · rw [if_neg h]
    have hfalse : ((u == u') && (c == c')) = false := by
      rcases Decidable.not_and_iff_or_not.mp h with h' | h' <;> simp [h']
    simp [countVotes, voteCreate_votes, List.filter_append, hfalse]

lemma countVotes_eq_zero_of_findVote_none (s : DBState) (u c : Nat)
    (h : findVote s u c = none) : countVotes s u c = 0 := by
  simp only [findVote, List.find?_eq_none] at h
  simp only [countVotes, List.length_eq_zero]
  exact List.filter_eq_nil_iff.mpr h

lemma eq_singleton_of_mem_of_length_le_one {α : Type} {l : List α} {a : α}
    (h : a ∈ l) (hl : l.length ≤ 1) : l = [a] := by
  match l, h with
  | x :: xs, h =>
      have hxs : xs = [] := by
        have : xs.length = 0 := by simpa [Nat.succ_le_succ_iff] using hl
        exact List.length_eq_zero.mp this
      subst hxs
      simp at h
      subst h
      rfl

lemma filter_eq_singleton_of_findVote_some (s : DBState) (u c : Nat) (v : Vote)
    (h : findVote s u c = some v) (hle : countVotes s u c ≤ 1) :
    s.votes.filter (fun w => w.user == u && w.comment == c) = [v] := by
  have h' : s.votes.find? (fun w => w.user == u && w.comment == c) = some v := h
  have hp := List.find?_some h'
  refine eq_singleton_of_mem_of_length_le_one
    (List.mem_filter.mpr ⟨List.mem_of_find?_eq_some h', ?_⟩) hle
  simpa using hp

lemma filter_voteDelete_eq_nil (env : Env) (s : DBState) (u c : Nat)
    (v : Vote) (h : findVote s u c = some v) (hle : countVotes s u c ≤ 1) :
    (voteDelete env s v).votes.filter (fun w => w.user == u && w.comment == c)
      = [] := by
  have hsingle := filter_eq_singleton_of_findVote_some s u c v h hle
  simp only [voteDelete_votes]
  rw [List.filter_filter]
  refine List.filter_eq_nil_iff.mpr ?_
  intro w hw hcontra
  rw [Bool.and_eq_true] at hcontra
  have hmem2 : w ∈ s.votes.filter (fun x => x.user == u && x.comment == c) :=
    List.mem_filter.mpr ⟨hw, hcontra.1⟩
  rw [hsingle] at hmem2
  simp at hmem2
  subst hmem2
  have hid := hcontra.2
  simp at hid

lemma countVotes_voteDelete_of_findVote_some (env : Env) (s : DBState) (u c : Nat)
    (v : Vote) (h : findVote s u c = some v) (hle : countVotes s u c ≤ 1) :
    countVotes (voteDelete env s v) u c = 0 := by
  simp [countVotes, filter_voteDelete_eq_nil env s u c v h hle]

lemma countVotes_submit_vote_le (env : Env) (s : DBState) (u c : Nat) (t : VoteType)
    (hinv : ∀ u' c', countVotes s u' c' ≤ 1) :
    ∀ u' c', countVotes (submit_vote env s u c t).1 u' c' ≤ 1 := by
  intro u' c'
  cases hfind : findVote s u c with
  | none =>
      simp only [submit_vote, hfind]
      rw [countVotes_voteCreate]
      by_cases h : u = u' ∧ c = c'
      · obtain ⟨h1, h2⟩ := h
        subst h1; subst h2
        rw [countVotes_eq_zero_of_findVote_none s u c hfind]
        simp
      · rw [if_neg h]
        simpa using hinv u' c'
  | some v =>
      by_cases ht : v.vote_type = t
      · simp only [submit_vote, hfind, if_pos ht]
        exact le_trans (countVotes_voteDelete_le env s v u' c') (hinv u' c')
      · simp only [submit_vote, hfind, if_neg ht]
        rw [countVotes_voteCreate]
        by_cases h : u = u' ∧ c = c'
        · obtain ⟨h1, h2⟩ := h
          subst h1; subst h2
          rw [countVotes_voteDelete_of_findVote_some env s u c v hfind (hinv u c)]
          simp
        · rw [if_neg h]
          simpa using le_trans (countVotes_voteDelete_le env s v u' c') (hinv u' c')

lemma countVotes_destroy_le (env : Env) (s : DBState) (ru vid u c : Nat) :
    countVotes (destroy env s ru vid).1 u c ≤ countVotes s u c := by
  cases hfind : s.votes.find? (fun v => v.id == vid) with
  | none => simp [destroy, hfind]
  | some v =>
      by_cases hu : v.user ≠ ru
      · simp [destroy, hfind, hu]
      · simp only [destroy, hfind, if_neg hu]
        exact countVotes_voteDelete_le env s v u c

/-- **C2.** The vote ledger invariant: in every state reachable from a fresh
store by `submit_vote` and deletion-endpoint operations, every (user,
comment) pair has at most one stored vote. -/
theorem vote_ledger_at_most_one (env : Env) (s : DBState) (h : Reachable env s) :
    ∀ u c, countVotes s u c ≤ 1 := by
  induction h with
  | init => intro u c; simp [countVotes, initState]
  | vote s' u' c' t' _ ih => exact countVotes_submit_vote_le env s' u' c' t' ih
  | del s' ru vid _ ih =>
      intro u c
      exact le_trans (countVotes_destroy_le env s' ru vid u c) (ih u c)

/-- Witness for C2: the invariant holds in the concrete reachable state
obtained by one upvote submission from the fresh store. -/
theorem vote_ledger_at_most_one_witness :
    countVotes (submit_vote env0 initState 1 2 VoteType.upvote).1 1 2 ≤ 1 :=
  vote_ledger_at_most_one env0 _
    (Reachable.vote initState 1 2 VoteType.upvote Reachable.init) 1 2

lemma findVote_voteCreate_self (env : Env) (s : DBState) (u c : Nat) (t : VoteType)
    (h : findVote s u c = none) :
    findVote (voteCreate env s u c t).1 u c
      = some { id := s.nextId, user := u, comment := c, vote_type := t } := by
  have h' : s.votes.find? (fun w => w.user == u && w.comment == c) = none := h
  simp only [findVote, voteCreate_votes]
  rw [List.find?_append, h']
  simp

lemma countVotes_voteCreate_self (env : Env) (s : DBState) (u c : Nat) (t : VoteType)
    (h : findVote s u c = none) :
    countVotes (voteCreate env s u c t).1 u c = 1 := by
  rw [countVotes_voteCreate, countVotes_eq_zero_of_findVote_none s u c h]
  simp

/-- **C5.** Submitting the same vote twice: starting from a store where `u`
has no vote on `c`, two successive `submit_vote(u, c, t)` calls leave zero
stored votes by `u` on `c` and leave the comment author's points at their
value before the first submission. -/
theorem double_submit_nets_zero (env : Env) (s : DBState) (u c : Nat) (t : VoteType)
    (h : findVote s u c = none) :
    countVotes (submit_vote env (submit_vote env s u c t).1 u c t).1 u c = 0
  ∧ (submit_vote env (submit_vote env s u c t).1 u c t).1.points (env.commentAuthor c)
      = s.points (env.commentAuthor c) := by
  have hs1 : (submit_vote env s u c t).1 = (voteCreate env s u c t).1 := by
    simp only [submit_vote, h]
  have hfind1 := findVote_voteCreate_self env s u c t h
  have hle1 : countVotes (voteCreate env s u c t).1 u c ≤ 1 := by
    rw [countVotes_voteCreate_self env s u c t h]
  have hs2 : (submit_vote env (submit_vote env s u c t).1 u c t).1
      = voteDelete env (voteCreate env s u c t).1
          { id := s.nextId, user := u, comment := c, vote_type := t } := by
    rw [hs1]
    simp only [submit_vote, hfind1]
    simp
  rw [hs2]
  constructor
  · exact countVotes_voteDelete_of_findVote_some env (voteCreate env s u c t).1 u c
      _ hfind1 hle1
  · have hd := voteDelete_points env (voteCreate env s u c t).1
      { id := s.nextId, user := u, comment := c, vote_type := t }
    rw [hd, voteCreate_points]
    ring

/-- Witness for C5: two upvote submissions on a fresh store net zero votes
and zero points change. -/
theorem double_submit_nets_zero_witness :
    countVotes (submit_vote env0 (submit_vote env0 initState 1 2 VoteType.upvote).1
        1 2 VoteType.upvote).1 1 2 = 0
  ∧ (submit_vote env0 (submit_vote env0 initState 1 2 VoteType.upvote).1
        1 2 VoteType.upvote).1.points (env0.commentAuthor 2)
      = initState.points (env0.commentAuthor 2) :=
  double_submit_nets_zero env0 initState 1 2 VoteType.upvote (by decide)

/-- Counterexample to C6 as stated: on a store where the author has 5 points
and user 1 has no vote on comment 2, submitting an upvote and then a
downvote leaves the author at 4 points, not at `5 - 2 = 3` — the net swing
relative to the pre-vote state is `-1`, not `-2`. -/
theorem upvote_then_downvote_swing_counterexample :
    (submit_vote env0 (submit_vote env0 s5 1 2 VoteType.upvote).1
        1 2 VoteType.downvote).1.points 0 = 4
  ∧ (submit_vote env0 (submit_vote env0 s5 1 2 VoteType.upvote).1
        1 2 VoteType.downvote).1.points 0 ≠ s5.points 0 - 2 := by
  constructor <;> decide

/-- **C6 (amended).** Submitting an upvote then a downvote from a user with
no prior vote leaves exactly one stored vote by that user on the comment —
a downvote — and moves the comment author's points by `-1` relative to the
pre-vote state (equivalently, by `-2` relative to the state after the
upvote was counted). -/
theorem upvote_then_downvote_amended (env : Env) (s : DBState) (u c : Nat)
    (h : findVote s u c = none) :
    ((submit_vote env (submit_vote env s u c VoteType.upvote).1 u c
        VoteType.downvote).1.votes.filter
          (fun w => w.user == u && w.comment == c)).map Vote.vote_type
      = [VoteType.downvote]
  ∧ (submit_vote env (submit_vote env s u c VoteType.upvote).1 u c
        VoteType.downvote).1.points (env.commentAuthor c)
      = s.points (env.commentAuthor c) - 1 := by
  have hs1 : (submit_vote env s u c VoteType.upvote).1
      = (voteCreate env s u c VoteType.upvote).1 := by
    simp only [submit_vote, h]
  have hfind1 := findVote_voteCreate_self env s u c VoteType.upvote h
  have hle1 : countVotes (voteCreate env s u c VoteType.upvote).1 u c ≤ 1 := by
    rw [countVotes_voteCreate_self env s u c VoteType.upvote h]
  have hs2 : (submit_vote env (submit_vote env s u c VoteType.upvote).1 u c
        VoteType.downvote).1
      = (voteCreate env
          (voteDelete env (voteCreate env s u c VoteType.upvote).1
            { id := s.nextId, user := u, comment := c, vote_type := VoteType.upvote })
          u c VoteType.downvote).1 := by
    rw [hs1]
    simp only [submit_vote, hfind1]
    simp
  have hnil := filter_voteDelete_eq_nil env (voteCreate env s u c VoteType.upvote).1
    u c _ hfind1 hle1
  rw [hs2]
  constructor
  · rw [voteCreate_votes, List.filter_append, hnil]
    simp
  · rw [voteCreate_points]
    have hd := voteDelete_points env (voteCreate env s u c VoteType.upvote).1
      { id := s.nextId, user := u, comment := c, vote_type := VoteType.upvote }
    dsimp only at hd
    rw [hd, voteCreate_points]
    have h1 : voteDelta VoteType.upvote = 1 := rfl
    have h2 : voteDelta VoteType.downvote = -1 := rfl
    rw [h1, h2]
    ring

/-- Witness for C6 (amended): from a fresh store, upvote then downvote by
user 1 on comment 2 leaves a single stored downvote and author points `-1`
relative to the pre-vote value 0. -/
theorem upvote_then_downvote_amended_witness :
    ((submit_vote env0 (submit_vote env0 initState 1 2 VoteType.upvote).1 1 2
        VoteType.downvote).1.votes.filter
          (fun w => w.user == 1 && w.comment == 2)).map Vote.vote_type
      = [VoteType.downvote]
  ∧ (submit_vote env0 (submit_vote env0 initState 1 2 VoteType.upvote).1 1 2
        VoteType.downvote).1.points (env0.commentAuthor 2)
      = initState.points (env0.commentAuthor 2) - 1 :=
  upvote_then_downvote_amended env0 initState 1 2 (by decide)

/-- **C7.** The vote deletion endpoint: when the requested vote exists, a
request by a non-owner yields a 403 (forbidden) result with the store — the
vote rows and every profile's points — unchanged; a request by the owner
deletes the vote. -/
theorem vote_destroy_owner_only (env : Env) (s : DBState) (ru vid : Nat) (v : Vote)
    (h : s.votes.find? (fun w => w.id == vid) = some v) :
    (v.user ≠ ru → destroy env s ru vid = (s, DestroyResult.forbidden))
  ∧ (v.user = ru →
      (destroy env s ru vid).2 = DestroyResult.deleted
      ∧ v ∉ (destroy env s ru vid).1.votes) := by
  constructor
  · intro hne
    simp only [destroy, h, if_pos hne]
  · intro hown
    have hcond : ¬ v.user ≠ ru := by simp [hown]
    have hred : destroy env s ru vid = (voteDelete env s v, DestroyResult.deleted) := by
      simp only [destroy, h, if_neg hcond]
    rw [hred]
    exact ⟨rfl, self_not_mem_voteDelete env s v⟩

/-- Witness for C7: on the store `sB` (holding vote 0 owned by user 1), a
deletion request by user 2 is forbidden and changes nothing, while user 1's
request deletes the vote. -/
theorem vote_destroy_owner_only_witness :
    destroy env0 sB 2 0 = (sB, DestroyResult.forbidden)
  ∧ ((destroy env0 sB 1 0).2 = DestroyResult.deleted
      ∧ vB ∉ (destroy env0 sB 1 0).1.votes) :=
  ⟨(vote_destroy_owner_only env0 sB 2 0 vB (by decide)).1 (by decide),
   (vote_destroy_owner_only env0 sB 1 0 vB (by decide)).2 rfl⟩

/-- Counterexample to C10 as stated: from a fresh store (every profile at
the declared default of 0 points), the reachable state after a single
downvote submission has the comment author's points at `-1`: the aggregator
does not keep the counter non-negative. -/
theorem points_nonnegative_counterexample :
    Reachable env0 (submit_vote env0 initState 1 2 VoteType.downvote).1
  ∧ (submit_vote env0 initState 1 2 VoteType.downvote).1.points 0 = -1
  ∧ (submit_vote env0 initState 1 2 VoteType.downvote).1.points 0 < 0 :=
  ⟨Reachable.vote initState 1 2 VoteType.downvote Reachable.init,
   by decide, by decide⟩

/-- **C10 (amended).** The `points` column is declared non-negative
(`PositiveIntegerField`), but the aggregator does not maintain that bound: a
downvote received by a comment author with 0 points sets the author's
points to `-1` in application logic. -/
theorem points_can_go_negative_amended (env : Env) (s : DBState) (u c : Nat)
    (h : findVote s u c = none) (hp : s.points (env.commentAuthor c) = 0) :
    (submit_vote env s u c VoteType.downvote).1.points (env.commentAuthor c) = -1 := by
  simp only [submit_vote, h]
  rw [voteCreate_points, hp]
  rfl

/-- Witness for C10 (amended): user 1 downvotes comment 2 on a fresh store;
the author's points become `-1`. -/
theorem points_can_go_negative_amended_witness :
    (submit_vote env0 initState 1 2 VoteType.downvote).1.points
        (env0.commentAuthor 2) = -1 :=
  points_can_go_negative_amended env0 initState 1 2 (by decide) rfl

lemma two_le_length_of_two_mem {α : Type} {l : List α} {a b : α}
    (ha : a ∈ l) (hb : b ∈ l) (hne : a ≠ b) : 2 ≤ l.length := by
  cases l with
  | nil => simp at ha
  | cons x xs =>
      cases xs with
      | nil =>
          simp at ha hb
          subst ha
          subst hb
          exact absurd rfl hne
      | cons y ys => simp [List.length]

/-- **C4.** Deleting a post removes exactly the orphaned tags: a tag
attached to the deleted post whose pre-delete referencing-post count is
exactly one is deleted; a tag attached to it that some other stored post
also references is preserved; a tag not attached to it is untouched. -/
theorem delete_post_tag_gc (s : BlogState) (p : Post) (t : Tag) (ht : t ∈ s.tags) :
    (p.tags.contains t.id = true → postsWithTag s t.id = 1 →
        t ∉ (post_delete s p).tags)
  ∧ (∀ q : Post, p.tags.contains t.id = true → p ∈ s.posts → q ∈ s.posts →
        q.id ≠ p.id → q.tags.contains t.id = true → t ∈ (post_delete s p).tags)
  ∧ (p.tags.contains t.id = false → t ∈ (post_delete s p).tags) := by
  refine ⟨?_, ?_, ?_⟩
  · intro h1 h2 hmem
    have hkeep := (List.mem_filter.mp hmem).2
    simp [h2] at hkeep
    simp at h1
    exact hkeep h1
  · intro q h1 hp hq hqid hqt
    have hp' : p ∈ s.posts.filter (fun x => x.tags.contains t.id) :=
      List.mem_filter.mpr ⟨hp, h1⟩
    have hq' : q ∈ s.posts.filter (fun x => x.tags.contains t.id) :=
      List.mem_filter.mpr ⟨hq, hqt⟩
    have hqp : q ≠ p := fun hh => hqid (by rw [hh])
    have h2 := two_le_length_of_two_mem hq' hp' hqp
    have hcount : postsWithTag s t.id ≠ 1 := by
      simp only [postsWithTag]
      omega
    refine List.mem_filter.mpr ⟨ht, ?_⟩
    simp [hcount]
  · intro h1
    refine List.mem_filter.mpr ⟨ht, ?_⟩
    simp at h1
    simp [h1]

/-- Witness for C4: deleting post `pA` deletes its orphaned `tag1`, keeps
`tag2` (still referenced by `pB`), and leaves the unattached `tag3`. -/
theorem delete_post_tag_gc_witness :
    tag1 ∉ (post_delete sBlog pA).tags
  ∧ tag2 ∈ (post_delete sBlog pA).tags
  ∧ tag3 ∈ (post_delete sBlog pA).tags :=
  ⟨(delete_post_tag_gc sBlog pA tag1 (by decide)).1 (by decide) (by decide),
   (delete_post_tag_gc sBlog pA tag2 (by decide)).2.1 pB (by decide) (by decide)
     (by decide) (by decide) (by decide),
   (delete_post_tag_gc sBlog pA tag3 (by decide)).2.2 (by decide)⟩

/-- **C8.** Account creation: any password shorter than 6 characters is
rejected with a validation error and no user row is created; with a
non-empty email and a password of length at least 6, `create_user` succeeds
and appends exactly one new user row. -/
theorem create_user_password_validation (users : List User)
    (email password username : String) :
    (password.length < 6 →
        ∃ msg, create_user users email password username = Except.error msg)
  ∧ (email ≠ "" → 6 ≤ password.length →
        create_user users email password username
          = Except.ok
              (users ++ [{ email := normalize_email email, username := username }],
                { email := normalize_email email, username := username })) := by
  constructor
  · intro hshort
    by_cases hemail : email = ""
    · exact ⟨"User must have an email address.", by simp [create_user, hemail]⟩
    · exact ⟨"Password must be at least 6 characters.",
        by simp [create_user, hemail, hshort]⟩
  · intro hemail hlen
    have hnotshort : ¬ password.length < 6 := by omega
    simp [create_user, hemail, hnotshort]

/-- Witness for C8: the password `"12345"` is rejected, and the account
`("user@example.com", "123456")` is created. -/
theorem create_user_password_validation_witness :
    (∃ msg, create_user [] "user@example.com" "12345" "u" = Except.error msg)
  ∧ (create_user [] "user@example.com" "123456" "u"
      = Except.ok
          ([{ email := normalize_email "user@example.com", username := "u" }],
            { email := normalize_email "user@example.com", username := "u" })) :=
  ⟨(create_user_password_validation [] "user@example.com" "12345" "u").1 (by decide),
   (create_user_password_validation [] "user@example.com" "123456" "u").2
     (by decide) (by decide)⟩

/-- **C9.** For each of the eight accepted `sort` parameter values, the post
listing returns a permutation of the stored posts, sorted by the
corresponding key (case-insensitive title, number of comments, creation
time, update time) in the corresponding direction. -/
theorem post_listing_sort (posts : List Post) :
    (List.Perm (get_queryset none (some "title-asc") posts) posts
      ∧ List.Sorted (keyAsc titleKey) (get_queryset none (some "title-asc") posts))
  ∧ (List.Perm (get_queryset none (some "title-desc") posts) posts
      ∧ List.Sorted (keyDesc titleKey) (get_queryset none (some "title-desc") posts))
  ∧ (List.Perm (get_queryset none (some "comments-asc") posts) posts
      ∧ List.Sorted (keyAsc Post.number_of_comments)
          (get_queryset none (some "comments-asc") posts))
  ∧ (List.Perm (get_queryset none (some "comments-desc") posts) posts
      ∧ List.Sorted (keyDesc Post.number_of_comments)
          (get_queryset none (some "comments-desc") posts))
  ∧ (List.Perm (get_queryset none (some "date-asc") posts) posts
      ∧ List.Sorted (keyAsc Post.created_at)
          (get_queryset none (some "date-asc") posts))
  ∧ (List.Perm (get_queryset none (some "date-desc") posts) posts
      ∧ List.Sorted (keyDesc Post.created_at)
          (get_queryset none (some "date-desc") posts))
  ∧ (List.Perm (get_queryset none (some "update-asc") posts) posts
      ∧ List.Sorted (keyAsc Post.updated_at)
          (get_queryset none (some "update-asc") posts))
  ∧ (List.Perm (get_queryset none (some "update-desc") posts) posts
      ∧ List.Sorted (keyDesc Post.updated_at)
          (get_queryset none (some "update-desc") posts)) := by
  refine ⟨⟨?_, ?_⟩, ⟨?_, ?_⟩, ⟨?_, ?_⟩, ⟨?_, ?_⟩, ⟨?_, ?_⟩, ⟨?_, ?_⟩, ⟨?_, ?_⟩,
    ⟨?_, ?_⟩⟩
  · exact List.perm_insertionSort _ posts
  · exact List.sorted_insertionSort _ posts
  · exact List.perm_insertionSort _ posts
  · exact List.sorted_insertionSort _ posts
  · exact List.perm_insertionSort _ posts
  · exact List.sorted_insertionSort _ posts
  · exact List.perm_insertionSort _ posts
  · exact List.sorted_insertionSort _ posts
  · exact List.perm_insertionSort _ posts
  · exact List.sorted_insertionSort _ posts
  · exact List.perm_insertionSort _ posts
  · exact List.sorted_insertionSort _ posts
  · exact List.perm_insertionSort _ posts
  · exact List.sorted_insertionSort _ posts
  · exact List.perm_insertionSort _ posts
  · exact List.sorted_insertionSort _ posts

end BlogDrf
